import Mathlib

/-!
Shallow embedding of the `images-to-archive` converter.

The repository packs a directory tree into a comic-book archive, transcoding
every image file to WebP and copying every other file verbatim.  The
definitions below are translated from the Go source:

* `fileops` package (`IsImageFile`, `DecodeImage`): extension-based
  classification and the four-step decode fallback chain.
* `archive` package (`CreateArchive`, `CreateZipArchive`, `CreateRarArchive`,
  `Create7zArchive`, `addImageAsWebPToZip`, `addFileToZip`).

Modelling conventions:
* Bytes are `List Nat`; an open file handle is a byte list plus a seek
  position (`GoFile`).
* The standard-library codecs (`jpeg.Decode`, `png.Decode`, `gif.Decode`,
  `image.Decode`) and the WebP encoder live outside the repository, so they
  are parameters (`Decoders`, an `enc` function) of the functions that call
  them.
* A zip archive is the list of entries written so far plus a flag recording
  whether the central-directory footer has been written (`zip.Writer.Close`).
* `filepath.Walk` enumerates the tree in lexical order; the model takes the
  resulting sequence of visited entries (`WalkItem`, carrying the absolute
  path, the `filepath.Rel`-computed relative path, the directory flag, the
  contents and the stat metadata) as input.
* Filesystem effects of the external-repack paths are tracked as the set of
  paths present (`FS`); `os.Create` and `os.Open` are assumed to succeed
  (I/O errors on open/create/stat are not modelled).
-/

/-- `filepath.Ext` scan: walk the path backwards (the input here is the
reversed path); stop at a path separator, return from the final dot.
`acc` holds the characters already passed, in original order. -/
def extAux : List Char → List Char → List Char
  | [], _ => []
  | c :: rest, acc =>
    if c = '/' then []
    else if c = '.' then c :: acc
    else extAux rest (c :: acc)

/-- Go `filepath.Ext` on a list of characters: the suffix beginning at the
final dot in the final path element, empty if there is none. -/
def filepathExtL (p : List Char) : List Char := extAux p.reverse []

/-- Go `filepath.Ext` on strings. -/
def filepathExt (p : String) : String := ⟨filepathExtL p.data⟩

/-- Go `strings.ToLower` (ASCII range, which covers every string the
program compares). -/
def goToLower (s : String) : String := ⟨s.data.map Char.toLower⟩

/-- `fileops.IsImageFile`: classification by lowercased extension only. -/
def IsImageFile (filename : String) : Bool :=
  let ext := goToLower (filepathExt filename)
  ext == ".jpg" || ext == ".jpeg" || ext == ".png" || ext == ".gif"

/-- An open Go file: its full contents and the current seek position. -/
structure GoFile where
  content : List Nat
  pos : Nat
deriving DecidableEq, Repr

/-- `file.Seek(0, 0)`. -/
def GoFile.seekStart (f : GoFile) : GoFile := { f with pos := 0 }

/-- The bytes a decoder sees: everything from the current position on. -/
def GoFile.readRest (f : GoFile) : List Nat := f.content.drop f.pos

/-- The four standard-library codecs `fileops.DecodeImage` calls, over an
abstract pixel-image type.  `generic` is `image.Decode`, which also reports
the format name it detected. -/
structure Decoders (Img : Type) where
  jpeg : List Nat → Except String Img
  png : List Nat → Except String Img
  gif : List Nat → Except String Img
  generic : List Nat → Except String (Img × String)

/-- `fileops.DecodeImage`: seek to the start, try JPEG; on failure seek
again and try PNG, then GIF, then the generic decoder; return the first
success with its format tag, or the last error when all four fail. -/
def DecodeImage {Img : Type} (d : Decoders Img) (f : GoFile) :
    Except String (Img × String) :=
  let f1 := f.seekStart
  match d.jpeg f1.readRest with
  | .ok img => .ok (img, "JPEG")
  | .error _ =>
    let f2 := f1.seekStart
    match d.png f2.readRest with
    | .ok img => .ok (img, "PNG")
    | .error _ =>
      let f3 := f2.seekStart
      match d.gif f3.readRest with
      | .ok img => .ok (img, "GIF")
      | .error _ =>
        let f4 := f3.seekStart
        match d.generic f4.readRest with
        | .error e => .error e
        | .ok (img, fmt) => .ok (img, fmt)

/-- Go `strings.HasSuffix` on character lists. -/
def hasSuffix (s suf : List Char) : Bool :=
  decide (suf.length ≤ s.length) && (s.drop (s.length - suf.length) == suf)

/-- Go `strings.TrimSuffix` on character lists: drop `suf` from the end of
`s` when it is a suffix, otherwise return `s` unchanged. -/
def trimSuffixL (s suf : List Char) : List Char :=
  if hasSuffix s suf then s.take (s.length - suf.length) else s

/-- Go `strings.TrimSuffix` on strings. -/
def trimSuffix (s suf : String) : String := ⟨trimSuffixL s.data suf.data⟩

/-- The destination entry name `addImageAsWebPToZip` computes:
`strings.TrimSuffix(zipPath, filepath.Ext(zipPath)) + ".webp"`,
on character lists. -/
def webpNameL (p : List Char) : List Char :=
  trimSuffixL p (filepathExtL p) ++ ".webp".data

/-- The destination entry name on strings. -/
def webpName (p : String) : String := ⟨webpNameL p.data⟩

/-- A `zip.FileHeader` as the program fills it in.  `addFileToZip` builds it
from `zip.FileInfoHeader(info)` (which carries the source file's mode and
modification time) and then sets the name and method;
`addImageAsWebPToZip` builds a literal header with only a name and a
method, so its metadata fields stay empty. -/
structure ZipHeader where
  name : String
  method : Nat
  mode : Option Nat
  modTime : Option Nat
deriving DecidableEq, Repr

/-- `zip.Deflate`. -/
def zipDeflate : Nat := 8

/-- One entry written into the zip: its header and its bytes. -/
structure ZipEntry where
  header : ZipHeader
  content : List Nat
deriving DecidableEq, Repr

/-- The state of a `zip.Writer` over the output file: the entries written so
far and whether `Close` has written the central-directory footer. -/
structure ZipArchive where
  entries : List ZipEntry
  footerWritten : Bool
deriving DecidableEq, Repr

/-- A fresh `zip.NewWriter` over a freshly created output file. -/
def emptyZip : ZipArchive := { entries := [], footerWritten := false }

/-- One entry the `filepath.Walk` callback is invoked on: the absolute path,
the `filepath.Rel(sourceDir, path)` result, the directory flag, and the
file's contents and stat metadata. -/
structure WalkItem where
  path : String
  relPath : String
  isDir : Bool
  content : List Nat
  mode : Nat
  modTime : Nat
deriving DecidableEq, Repr

/-- `archive.addImageAsWebPToZip`: open the file, run the decode fallback
chain, build a header holding only the `.webp` name and the Deflate method,
create the entry and stream the WebP encoding into it.  On decode failure
nothing has been written for this file; on encode failure the header was
already created, so a truncated entry remains (its partial bytes are
modelled as empty). -/
def addImageAsWebPToZip {Img : Type} (enc : Img → Except String (List Nat))
    (d : Decoders Img) (z : ZipArchive) (item : WalkItem) :
    ZipArchive × Except String Unit :=
  match DecodeImage d { content := item.content, pos := 0 } with
  | .error e => (z, .error e)
  | .ok (img, _fmt) =>
    let header : ZipHeader :=
      { name := webpName item.relPath, method := zipDeflate,
        mode := none, modTime := none }
    match enc img with
    | .error e =>
      ({ z with entries := z.entries ++ [{ header := header, content := [] }] },
       .error e)
    | .ok bytes =>
      ({ z with entries := z.entries ++ [{ header := header, content := bytes }] },
       .ok ())

/-- `archive.addFileToZip`: stat the file, derive the header from the
`FileInfo` (mode and modification time), set the name to the relative path
and the method to Deflate, and copy the contents verbatim. -/
def addFileToZip (z : ZipArchive) (item : WalkItem) : ZipArchive :=
  { z with
    entries := z.entries ++
      [{ header := { name := item.relPath, method := zipDeflate,
                     mode := some item.mode, modTime := some item.modTime },
         content := item.content }] }

/-- The `filepath.Walk` callback of `CreateZipArchive`, folded over the
visited entries: directories are skipped, image files (by extension) go
through `addImageAsWebPToZip`, everything else through `addFileToZip`;
the walk stops at the first error. -/
def processWalk {Img : Type} (enc : Img → Except String (List Nat))
    (d : Decoders Img) : List WalkItem → ZipArchive → ZipArchive × Except String Unit
  | [], z => (z, .ok ())
  | item :: rest, z =>
    if item.isDir then processWalk enc d rest z
    else if IsImageFile item.path then
      match addImageAsWebPToZip enc d z item with
      | (z1, .error e) => (z1, .error e)
      | (z1, .ok _) => processWalk enc d rest z1
    else
      processWalk enc d rest (addFileToZip z item)

/-- `archive.CreateZipArchive`: create the output file, walk the tree
feeding each entry to the callback, and return the walk's outcome.  The
deferred `zipWriter.Close()` runs on every return path once the writer
exists, so the central-directory footer is written whether or not the walk
failed. -/
def CreateZipArchive {Img : Type} (enc : Img → Except String (List Nat))
    (d : Decoders Img) (items : List WalkItem) :
    ZipArchive × Except String Unit :=
  let r := processWalk enc d items emptyZip
  ({ r.1 with footerWritten := true }, r.2)

/-- The filesystem paths that exist, for tracking what the external-repack
paths create and remove. -/
structure FS where
  present : List String
deriving DecidableEq, Repr

/-- `os.Create`: the path exists afterwards. -/
def fsCreate (fs : FS) (p : String) : FS := { present := p :: fs.present }

/-- `os.Remove`: the path no longer exists afterwards. -/
def fsRemove (fs : FS) (p : String) : FS :=
  { present := fs.present.filter (fun q => q ≠ p) }

/-- Whether a path exists. -/
def FS.has (fs : FS) (p : String) : Bool := fs.present.contains p

/-- Availability of the external tools on the search path and the exit
status of their subprocess runs (`exec.LookPath`, `cmd.Run`). -/
structure ExtEnv where
  rarAvailable : Bool
  z7Available : Bool
  rarRunOk : Bool
  z7RunOk : Bool
deriving DecidableEq, Repr

/-- `CreateZipArchive` as seen by the filesystem: it creates the output
file at `archivePath` and reports the walk's outcome. -/
def CreateZipArchiveFS {Img : Type} (enc : Img → Except String (List Nat))
    (d : Decoders Img) (items : List WalkItem) (fs : FS) (archivePath : String) :
    FS × Except String Unit :=
  (fsCreate fs archivePath, (CreateZipArchive enc d items).2)

/-- `archive.CreateRarArchive`: fail fast when `rar` is not on the search
path; otherwise build `<archivePath>.temp.zip` with `CreateZipArchive`
(returning its error, with the temp file left behind, when that fails —
the deferred `os.Remove` is only registered after success), then run
`rar a -ep1 archivePath tempZipPath`; the deferred remove deletes the temp
file on both subprocess outcomes.  A failed subprocess is modelled as
creating no output file. -/
def CreateRarArchive {Img : Type} (enc : Img → Except String (List Nat))
    (d : Decoders Img) (items : List WalkItem) (env : ExtEnv) (fs : FS)
    (archivePath : String) : FS × Except String Unit :=
  if env.rarAvailable then
    let tempZipPath := archivePath ++ ".temp.zip"
    let zr := CreateZipArchiveFS enc d items fs tempZipPath
    match zr.2 with
    | .error e => (zr.1, .error e)
    | .ok _ =>
      if env.rarRunOk then
        (fsRemove (fsCreate zr.1 archivePath) tempZipPath, .ok ())
      else
        (fsRemove zr.1 tempZipPath, .error "failed to create RAR archive")
  else
    (fs, .error "rar command not found. Please install WinRAR or RAR for Linux/Mac")

/-- `archive.Create7zArchive`: same shape as `CreateRarArchive` with the
`7z` tool and `7z a -t7z archivePath tempZipPath`. -/
def Create7zArchive {Img : Type} (enc : Img → Except String (List Nat))
    (d : Decoders Img) (items : List WalkItem) (env : ExtEnv) (fs : FS)
    (archivePath : String) : FS × Except String Unit :=
  if env.z7Available then
    let tempZipPath := archivePath ++ ".temp.zip"
    let zr := CreateZipArchiveFS enc d items fs tempZipPath
    match zr.2 with
    | .error e => (zr.1, .error e)
    | .ok _ =>
      if env.z7RunOk then
        (fsRemove (fsCreate zr.1 archivePath) tempZipPath, .ok ())
      else
        (fsRemove zr.1 tempZipPath, .error "failed to create 7Z archive")
  else
    (fs, .error "7z command not found. Please install p7zip")

/-- `archive.CreateArchive`: dispatch on `strings.ToLower` of the requested
format; unknown formats log a warning and default to the zip path. -/
def CreateArchive {Img : Type} (enc : Img → Except String (List Nat))
    (d : Decoders Img) (items : List WalkItem) (env : ExtEnv) (fs : FS)
    (archivePath : String) (archiveType : String) : FS × Except String Unit :=
  let s := goToLower archiveType
  if s = "cbz" ∨ s = "zip" then CreateZipArchiveFS enc d items fs archivePath
  else if s = "cbr" ∨ s = "rar" then CreateRarArchive enc d items env fs archivePath
  else if s = "cb7z" ∨ s = "7z" then Create7zArchive enc d items env fs archivePath
  else CreateZipArchiveFS enc d items fs archivePath

/-! Concrete codecs for evaluating the model: each recognises its format by
its magic bytes, as the standard-library decoders do, over `Nat` as the
pixel-image type. -/

/-- Concrete decoder set: JPEG by SOI marker, PNG and GIF by signature, and
a generic decoder that recognises nothing. -/
def dec0 : Decoders Nat where
  jpeg := fun b => if b.take 3 = [255, 216, 255] then .ok 1 else .error "invalid JPEG format"
  png := fun b => if b.take 4 = [137, 80, 78, 71] then .ok 2 else .error "png: not a PNG file"
  gif := fun b => if b.take 3 = [71, 73, 70] then .ok 3 else .error "gif: reading header"
  generic := fun _ => .error "image: unknown format"

/-- Concrete WebP encoder: a RIFF-style payload tagged with the image. -/
def enc0 : Nat → Except String (List Nat) := fun i => .ok [82, 73, 70, 70, i]

/-- Shared environment fixtures for the external-repack paths. -/
def env0 : ExtEnv := { rarAvailable := true, z7Available := true, rarRunOk := true, z7RunOk := true }

/-- Environment where the subprocesses exit non-zero. -/
def envMixed : ExtEnv := { rarAvailable := true, z7Available := true, rarRunOk := false, z7RunOk := false }

/-- Environment with neither external tool on the search path. -/
def envNone : ExtEnv := { rarAvailable := false, z7Available := false, rarRunOk := false, z7RunOk := false }

/-- An empty filesystem. -/
def fs0 : FS := { present := [] }

/-- After seeking to the start, a decoder sees the whole content. -/
lemma seekStart_readRest (f : GoFile) : f.seekStart.readRest = f.content := by
  simp [GoFile.seekStart, GoFile.readRest]

/-- `DecodeImage` presented as the four attempts over the full contents:
the seek before each attempt means every decoder sees the bytes from the
beginning. -/
lemma DecodeImage_eq {Img : Type} (d : Decoders Img) (f : GoFile) :
    DecodeImage d f =
      match d.jpeg f.content with
      | .ok img => .ok (img, "JPEG")
      | .error _ =>
        match d.png f.content with
        | .ok img => .ok (img, "PNG")
        | .error _ =>
          match d.gif f.content with
          | .ok img => .ok (img, "GIF")
          | .error _ =>
            match d.generic f.content with
            | .error e => .error e
            | .ok (img, fmt) => .ok (img, fmt) := by
  simp only [DecodeImage, GoFile.seekStart, GoFile.readRest, List.drop_zero]

/-- Claim C2: `DecodeImage` tries the decoders in the fixed order JPEG,
PNG, GIF, generic, rewinding the stream to its start before each attempt
(so the result never depends on the starting position); it returns the
first successful decode with its format tag — in particular a stream the
JPEG decoder rejects but the PNG decoder accepts yields tag "PNG"
whatever the file is named, the name not being an input at all — and it
errors only when all four attempts fail, returning the last (generic)
decoder's error. -/
theorem claim_C2 {Img : Type} (d : Decoders Img) (f : GoFile) :
    (∀ img, d.jpeg f.content = .ok img → DecodeImage d f = .ok (img, "JPEG"))
    ∧ (∀ img ej, d.jpeg f.content = .error ej → d.png f.content = .ok img →
        DecodeImage d f = .ok (img, "PNG"))
    ∧ (∀ img ej ep, d.jpeg f.content = .error ej → d.png f.content = .error ep →
        d.gif f.content = .ok img → DecodeImage d f = .ok (img, "GIF"))
    ∧ (∀ img fmt ej ep eg, d.jpeg f.content = .error ej →
        d.png f.content = .error ep → d.gif f.content = .error eg →
        d.generic f.content = .ok (img, fmt) → DecodeImage d f = .ok (img, fmt))
    ∧ (∀ ej ep eg eG, d.jpeg f.content = .error ej → d.png f.content = .error ep →
        d.gif f.content = .error eg → d.generic f.content = .error eG →
        DecodeImage d f = .error eG)
    ∧ DecodeImage d f = DecodeImage d { content := f.content, pos := 0 } := by
  refine ⟨?_, ?_, ?_, ?_, ?_, ?_⟩
  · intro img h
    rw [DecodeImage_eq, h]
  · intro img ej h1 h2
    rw [DecodeImage_eq, h1, h2]
  · intro img ej ep h1 h2 h3
    rw [DecodeImage_eq, h1, h2, h3]
  · intro img fmt ej ep eg h1 h2 h3 h4
    rw [DecodeImage_eq, h1, h2, h3, h4]
  · intro ej ep eg eG h1 h2 h3 h4
    rw [DecodeImage_eq, h1, h2, h3, h4]
  · rw [DecodeImage_eq, DecodeImage_eq]

/-- Claim C2 witness: a PNG byte stream handed over at a nonzero seek
position (as if previously read) still decodes, with tag "PNG", after the
JPEG attempt fails. -/
theorem claim_C2_witness :
    DecodeImage dec0 { content := [137, 80, 78, 71, 0], pos := 5 } = .ok (2, "PNG") :=
  (claim_C2 dec0 { content := [137, 80, 78, 71, 0], pos := 5 }).2.1 2
    "invalid JPEG format" rfl rfl

/-- The walk over a concatenation: process the first part; only when it
finishes without error does the walk continue into the second part. -/
lemma processWalk_append {Img : Type} (enc : Img → Except String (List Nat))
    (d : Decoders Img) (l1 l2 : List WalkItem) (z : ZipArchive) :
    processWalk enc d (l1 ++ l2) z =
      match processWalk enc d l1 z with
      | (z1, .ok _) => processWalk enc d l2 z1
      | (z1, .error e) => (z1, .error e) := by
  induction l1 generalizing z with
  | nil => simp [processWalk]
  | cons item rest ih =>
    by_cases hd : item.isDir
    · simp [processWalk, hd, ih]
    · by_cases him : IsImageFile item.path
      · rcases h : addImageAsWebPToZip enc d z item with ⟨z1, r⟩
        cases r with
        | error e => simp [processWalk, hd, him, h]
        | ok u => simp [processWalk, hd, him, h, ih]
      · simp [processWalk, hd, him, ih]

/-- A walk that only meets directories writes nothing and succeeds. -/
lemma processWalk_dirs {Img : Type} (enc : Img → Except String (List Nat))
    (d : Decoders Img) (items : List WalkItem) (z : ZipArchive)
    (h : ∀ i ∈ items, i.isDir = true) :
    processWalk enc d items z = (z, .ok ()) := by
  induction items with
  | nil => simp [processWalk]
  | cons a t ih =>
    have ha := h a (List.mem_cons_self a t)
    have ht := ih (fun i hi => h i (List.mem_cons_of_mem a hi))
    simp [processWalk, ha, ht]

/-- Claim C1, amended: when a classified image fails to decode, the walk
stops there — the error is returned and neither the failing file nor any
later entry is written — but the deferred `zipWriter.Close()` still runs on
the error return path, so the central-directory footer IS written and the
partial archive on disk is left finalized. -/
theorem claim_C1 {Img : Type} (enc : Img → Except String (List Nat))
    (d : Decoders Img) (pre post : List WalkItem) (item : WalkItem) (e : String)
    (hdir : item.isDir = false) (himg : IsImageFile item.path = true)
    (hdec : DecodeImage d { content := item.content, pos := 0 } = .error e)
    (hpre : (processWalk enc d pre emptyZip).2 = .ok ()) :
    CreateZipArchive enc d (pre ++ item :: post) =
      ({ entries := (processWalk enc d pre emptyZip).1.entries, footerWritten := true },
       .error e) := by
  rcases hp : processWalk enc d pre emptyZip with ⟨z1, r1⟩
  rw [hp] at hpre
  simp only at hpre
  subst hpre
  have hitem : addImageAsWebPToZip enc d z1 item = (z1, .error e) := by
    simp only [addImageAsWebPToZip, hdec]
  simp [CreateZipArchive, processWalk_append, hp, processWalk, hdir, himg, hitem]

/-- Claim C1 witness: an undecodable `.png` as the only entry, followed by
a text file the walk never reaches: the error comes back, the text file is
not in the archive, and the footer flag is set. -/
theorem claim_C1_witness :
    CreateZipArchive enc0 dec0
        ([] ++ { path := "/d/bad.png", relPath := "bad.png", isDir := false,
                 content := [0, 1], mode := 420, modTime := 7 } ::
          [{ path := "/d/late.txt", relPath := "late.txt", isDir := false,
             content := [104], mode := 420, modTime := 8 }]) =
      ({ entries := (processWalk enc0 dec0 [] emptyZip).1.entries,
         footerWritten := true },
       .error "image: unknown format") :=
  claim_C1 enc0 dec0 []
    [{ path := "/d/late.txt", relPath := "late.txt", isDir := false,
       content := [104], mode := 420, modTime := 8 }]
    { path := "/d/bad.png", relPath := "bad.png", isDir := false,
      content := [0, 1], mode := 420, modTime := 7 }
    "image: unknown format" rfl (by decide) rfl rfl

/-- Claim C1 counterexample against the claim as stated: a directory whose
single file is an undecodable `.png` makes the packaging fail, yet the
footer flag of the resulting archive is `true` — the central directory was
written by the deferred close, so the output is left finalized, not
unreadable. -/
theorem claim_C1_cex :
    (CreateZipArchive enc0 dec0
        [{ path := "/d/bad.png", relPath := "bad.png", isDir := false,
           content := [0, 1], mode := 420, modTime := 7 }]).2 =
      .error "image: unknown format"
    ∧ (CreateZipArchive enc0 dec0
        [{ path := "/d/bad.png", relPath := "bad.png", isDir := false,
           content := [0, 1], mode := 420, modTime := 7 }]).1.footerWritten = true := by
  exact ⟨rfl, rfl⟩

/-- Claim C8: a source tree with no non-directory entries packages
successfully into a finalized archive with zero entries. -/
theorem claim_C8 {Img : Type} (enc : Img → Except String (List Nat))
    (d : Decoders Img) (items : List WalkItem)
    (hdirs : ∀ i ∈ items, i.isDir = true) :
    CreateZipArchive enc d items = ({ entries := [], footerWritten := true }, .ok ())
    ∧ (CreateZipArchive enc d items).1.entries.length = 0 := by
  have h := processWalk_dirs enc d items emptyZip hdirs
  constructor
  · simp only [CreateZipArchive, h]
    rfl
  · simp only [CreateZipArchive, h]
    rfl

/-- Claim C8 witness: packaging a tree holding a single (empty) directory
yields the empty finalized archive. -/
theorem claim_C8_witness :
    CreateZipArchive enc0 dec0
        [{ path := "/d/sub", relPath := "sub", isDir := true,
           content := [], mode := 493, modTime := 2 }] =
      ({ entries := [], footerWritten := true }, .ok ())
    ∧ (CreateZipArchive enc0 dec0
        [{ path := "/d/sub", relPath := "sub", isDir := true,
           content := [], mode := 493, modTime := 2 }]).1.entries.length = 0 :=
  claim_C8 enc0 dec0 _ (by decide)

/-- The two-sibling source tree `a.jpg`, `a.png` whose destination names
collide. -/
def items9 : List WalkItem :=
  [{ path := "/d/a.jpg", relPath := "a.jpg", isDir := false,
     content := [255, 216, 255, 4], mode := 420, modTime := 1 },
   { path := "/d/a.png", relPath := "a.png", isDir := false,
     content := [137, 80, 78, 71, 4], mode := 420, modTime := 2 }]

/-- Claim C9: sibling images `a.jpg` and `a.png` both map to the entry
name `a.webp`; no deduplication happens anywhere, so the finished archive
holds two distinct entries carrying the identical name. -/
theorem claim_C9 :
    ((CreateZipArchive enc0 dec0 items9).1.entries.map fun en => en.header.name) =
      ["a.webp", "a.webp"]
    ∧ (CreateZipArchive enc0 dec0 items9).1.entries.length = 2
    ∧ (CreateZipArchive enc0 dec0 items9).2 = .ok () := by
  exact ⟨rfl, rfl, rfl⟩

/-- Removing a path makes it absent. -/
lemma fsRemove_has_self (fs : FS) (p : String) : (fsRemove fs p).has p = false := by
  simp [fsRemove, FS.has, List.mem_filter]

/-- Claim C3: in both external-repack paths, once the temporary zip was
built successfully, the temp file `<archivePath>.temp.zip` is gone from the
filesystem when the call returns — the deferred remove runs on subprocess
success and on non-zero exit alike (the environment fixes either
outcome). -/
theorem claim_C3 {Img : Type} (enc : Img → Except String (List Nat))
    (d : Decoders Img) (items : List WalkItem) (env : ExtEnv) (fs : FS)
    (archivePath : String)
    (hzip : (CreateZipArchive enc d items).2 = .ok ()) :
    (env.rarAvailable = true →
      ((CreateRarArchive enc d items env fs archivePath).1).has
        (archivePath ++ ".temp.zip") = false)
    ∧ (env.z7Available = true →
      ((Create7zArchive enc d items env fs archivePath).1).has
        (archivePath ++ ".temp.zip") = false) := by
  constructor
  · intro hr
    cases hrun : env.rarRunOk <;>
      simp [CreateRarArchive, CreateZipArchiveFS, hr, hrun, hzip, fsRemove_has_self]
  · intro h7
    cases hrun : env.z7RunOk <;>
      simp [Create7zArchive, CreateZipArchiveFS, h7, hrun, hzip, fsRemove_has_self]

/-- Claim C3 witness: with both tools present and both subprocesses exiting
non-zero, neither path leaves its temp file behind. -/
theorem claim_C3_witness :
    ((CreateRarArchive enc0 dec0 [] envMixed fs0 "out.cbr").1).has
        ("out.cbr" ++ ".temp.zip") = false
    ∧ ((Create7zArchive enc0 dec0 [] envMixed fs0 "out.cb7z").1).has
        ("out.cb7z" ++ ".temp.zip") = false :=
  ⟨(claim_C3 enc0 dec0 [] envMixed fs0 "out.cbr" rfl).1 rfl,
   (claim_C3 enc0 dec0 [] envMixed fs0 "out.cb7z" rfl).2 rfl⟩

/-- Claim C4: when the required external binary is missing, the conversion
returns the tool-not-found error with the filesystem untouched — no output
file and no temp file were created. -/
theorem claim_C4 {Img : Type} (enc : Img → Except String (List Nat))
    (d : Decoders Img) (items : List WalkItem) (env : ExtEnv) (fs : FS)
    (archivePath : String) :
    (env.rarAvailable = false →
      CreateRarArchive enc d items env fs archivePath =
        (fs, .error "rar command not found. Please install WinRAR or RAR for Linux/Mac"))
    ∧ (env.z7Available = false →
      Create7zArchive enc d items env fs archivePath =
        (fs, .error "7z command not found. Please install p7zip")) := by
  constructor
  · intro hr
    simp [CreateRarArchive, hr]
  · intro h7
    simp [Create7zArchive, h7]

/-- Claim C4 witness: with neither tool on the search path, both paths fail
fast and leave the (empty) filesystem exactly as it was. -/
theorem claim_C4_witness :
    CreateRarArchive enc0 dec0 [] envNone fs0 "out.cbr" =
      (fs0, .error "rar command not found. Please install WinRAR or RAR for Linux/Mac")
    ∧ Create7zArchive enc0 dec0 [] envNone fs0 "out.cb7z" =
      (fs0, .error "7z command not found. Please install p7zip") :=
  ⟨(claim_C4 enc0 dec0 [] envNone fs0 "out.cbr").1 rfl,
   (claim_C4 enc0 dec0 [] envNone fs0 "out.cb7z").2 rfl⟩

/-- Claim C5: `CreateArchive` dispatches on the lowercased format string —
`zip`/`cbz` to the native zip path, `rar`/`cbr` to the rar repack path,
`7z`/`cb7z` to the 7z repack path — any other string falls back to the
native zip path, and the dispatch depends on the format string only through
its lowercasing. -/
theorem claim_C5 {Img : Type} (enc : Img → Except String (List Nat))
    (d : Decoders Img) (items : List WalkItem) (env : ExtEnv) (fs : FS)
    (archivePath : String) (t : String) :
    ((goToLower t = "zip" ∨ goToLower t = "cbz") →
      CreateArchive enc d items env fs archivePath t =
        CreateZipArchiveFS enc d items fs archivePath)
    ∧ ((goToLower t = "rar" ∨ goToLower t = "cbr") →
      CreateArchive enc d items env fs archivePath t =
        CreateRarArchive enc d items env fs archivePath)
    ∧ ((goToLower t = "7z" ∨ goToLower t = "cb7z") →
      CreateArchive enc d items env fs archivePath t =
        Create7zArchive enc d items env fs archivePath)
    ∧ (goToLower t ∉ (["zip", "cbz", "rar", "cbr", "7z", "cb7z"] : List String) →
      CreateArchive enc d items env fs archivePath t =
        CreateZipArchiveFS enc d items fs archivePath)
    ∧ (∀ t2 : String, goToLower t = goToLower t2 →
      CreateArchive enc d items env fs archivePath t =
        CreateArchive enc d items env fs archivePath t2) := by
  refine ⟨?_, ?_, ?_, ?_, ?_⟩
  · rintro (h | h) <;> simp [CreateArchive, h]
  · rintro (h | h) <;> simp [CreateArchive, h]
  · rintro (h | h) <;> simp [CreateArchive, h]
  · intro h
    simp only [List.mem_cons, List.mem_singleton] at h
    push_neg at h
    obtain ⟨h1, h2, h3, h4, h5, h6⟩ := h
    simp [CreateArchive, h1, h2, h3, h4, h5, h6]
  · intro t2 h
    simp only [CreateArchive, h]

/-- Claim C5 witness: the mixed-case string "CBR" takes the rar path, and
the unknown format "tar" falls back to the native zip path. -/
theorem claim_C5_witness :
    CreateArchive enc0 dec0 [] env0 fs0 "o" "CBR" =
      CreateRarArchive enc0 dec0 [] env0 fs0 "o"
    ∧ CreateArchive enc0 dec0 [] env0 fs0 "o" "tar" =
      CreateZipArchiveFS enc0 dec0 [] fs0 "o" :=
  ⟨(claim_C5 enc0 dec0 [] env0 fs0 "o" "CBR").2.1 (Or.inr (by decide)),
   (claim_C5 enc0 dec0 [] env0 fs0 "o" "tar").2.2.2.1 (by decide)⟩

/-- The backwards scan through dot-free, separator-free characters keeps
going and finds the dot behind them. -/
lemma extAux_through (pre rest acc : List Char)
    (h : ∀ c ∈ pre, c ≠ '.' ∧ c ≠ '/') :
    extAux (pre ++ '.' :: rest) acc = '.' :: (pre.reverse ++ acc) := by
  induction pre generalizing acc with
  | nil => simp [extAux]
  | cons a t ih =>
    have ha := h a (List.mem_cons_self a t)
    have ht := fun c hc => h c (List.mem_cons_of_mem a hc)
    simp [extAux, ha.1, ha.2, ih _ ht]

/-- `filepath.Ext` of a path ending in `.tail`, for a `tail` free of dots
and separators, is exactly `.tail`, whatever comes before. -/
lemma filepathExtL_last_dot (stem tail : List Char)
    (h : ∀ c ∈ tail, c ≠ '.' ∧ c ≠ '/') :
    filepathExtL (stem ++ '.' :: tail) = '.' :: tail := by
  have hrev : ∀ c ∈ tail.reverse, c ≠ '.' ∧ c ≠ '/' :=
    fun c hc => h c (List.mem_reverse.mp hc)
  simp only [filepathExtL, List.reverse_append, List.reverse_cons,
    List.append_assoc, List.singleton_append]
  rw [extAux_through tail.reverse stem.reverse [] hrev]
  simp

/-- `strings.TrimSuffix` removes a suffix that is literally appended. -/
lemma trimSuffixL_append (l suf : List Char) : trimSuffixL (l ++ suf) suf = l := by
  have hdrop : (l ++ suf).drop ((l ++ suf).length - suf.length) = suf := by
    simp [List.length_append]
  have hsuf : hasSuffix (l ++ suf) suf = true := by
    simp [hasSuffix, hdrop, List.length_append]
  simp [trimSuffixL, hsuf, List.length_append]

/-- Claim C6: the archive entry written for a classified image is named by
`webpName` applied to the walk's relative path — a pure function of that
path alone, hence the same on any two conversions of the same path — and
`webpName` replaces the path's extension (everything from the last dot of
the last component) with `.webp`. -/
theorem claim_C6 (stem tail : List Char)
    (hTail : ∀ c ∈ tail, c ≠ '.' ∧ c ≠ '/') :
    webpNameL (stem ++ '.' :: tail) = stem ++ ".webp".data
    ∧ (∀ {Img : Type} (enc : Img → Except String (List Nat)) (d : Decoders Img)
        (z : ZipArchive) (item : WalkItem) (img : Img) (fmt : String)
        (bytes : List Nat),
        DecodeImage d { content := item.content, pos := 0 } = .ok (img, fmt) →
        enc img = .ok bytes →
        ∃ en : ZipEntry,
          (addImageAsWebPToZip enc d z item).1.entries = z.entries ++ [en]
          ∧ en.header.name = webpName item.relPath)
    ∧ (∀ r1 r2 : String, r1 = r2 → webpName r1 = webpName r2) := by
  refine ⟨?_, ?_, ?_⟩
  · rw [webpNameL, filepathExtL_last_dot stem tail hTail, trimSuffixL_append]
  · intro Img enc d z item img fmt bytes hdec henc
    refine ⟨{ header := { name := webpName item.relPath, method := zipDeflate,
                          mode := none, modTime := none },
              content := bytes }, ?_, ?_⟩
    · simp [addImageAsWebPToZip, hdec, henc]
    · rfl
  · intro r1 r2 h
    rw [h]

/-- Claim C6 witness: the relative path `sub/a.jpg` is renamed to
`sub/a.webp`. -/
theorem claim_C6_witness :
    webpNameL ("sub/a".data ++ '.' :: "jpg".data) = "sub/a".data ++ ".webp".data :=
  (claim_C6 "sub/a".data "jpg".data (by decide)).1

/-- Claim C7: a file not classified as an image is stored byte-identically
— the walk hands it to `addFileToZip`, which appends exactly one entry
whose content is the source file's content and whose header keeps the
source file's mode and modification time. -/
theorem claim_C7 {Img : Type} (enc : Img → Except String (List Nat))
    (d : Decoders Img) (z : ZipArchive) (item : WalkItem) (rest : List WalkItem)
    (hdir : item.isDir = false) (himg : IsImageFile item.path = false) :
    (addFileToZip z item).entries = z.entries ++
      [{ header := { name := item.relPath, method := zipDeflate,
                     mode := some item.mode, modTime := some item.modTime },
         content := item.content }]
    ∧ processWalk enc d (item :: rest) z =
        processWalk enc d rest (addFileToZip z item) := by
  constructor
  · rfl
  · simp [processWalk, hdir, himg]

/-- Claim C7 witness: the two-byte text file `n.txt` is copied verbatim
with its mode and time, and the walk proceeds past it. -/
theorem claim_C7_witness :
    (addFileToZip emptyZip
        { path := "/d/n.txt", relPath := "n.txt", isDir := false,
          content := [104, 105], mode := 420, modTime := 9 }).entries =
      emptyZip.entries ++
        [{ header := { name := "n.txt", method := zipDeflate,
                       mode := some 420, modTime := some 9 },
           content := [104, 105] }]
    ∧ processWalk enc0 dec0
        [{ path := "/d/n.txt", relPath := "n.txt", isDir := false,
           content := [104, 105], mode := 420, modTime := 9 }] emptyZip =
      processWalk enc0 dec0 []
        (addFileToZip emptyZip
          { path := "/d/n.txt", relPath := "n.txt", isDir := false,
            content := [104, 105], mode := 420, modTime := 9 }) :=
  claim_C7 enc0 dec0 emptyZip _ [] rfl (by decide)

/-- Claim C10: the header written for a transcoded image holds only the
`.webp` name and the Deflate method — its mode and modification-time
fields stay empty — whereas an entry added by `addFileToZip` derives both
from the source file's stat data. -/
theorem claim_C10 {Img : Type} (enc : Img → Except String (List Nat))
    (d : Decoders Img) (z : ZipArchive) (item : WalkItem) (img : Img)
    (fmt : String) (bytes : List Nat)
    (hdec : DecodeImage d { content := item.content, pos := 0 } = .ok (img, fmt))
    (henc : enc img = .ok bytes) :
    (addImageAsWebPToZip enc d z item).1.entries = z.entries ++
      [{ header := { name := webpName item.relPath, method := zipDeflate,
                     mode := none, modTime := none },
         content := bytes }]
    ∧ (addImageAsWebPToZip enc d z item).2 = .ok ()
    ∧ ∀ (z2 : ZipArchive) (item2 : WalkItem),
        (addFileToZip z2 item2).entries = z2.entries ++
          [{ header := { name := item2.relPath, method := zipDeflate,
                         mode := some item2.mode, modTime := some item2.modTime },
             content := item2.content }] := by
  refine ⟨?_, ?_, ?_⟩
  · simp [addImageAsWebPToZip, hdec, henc]
  · simp [addImageAsWebPToZip, hdec, henc]
  · intro z2 item2
    rfl

/-- Claim C10 witness: the decoded `a.jpg` goes in as `a.webp` with empty
metadata fields, while an opaque entry would carry mode and time. -/
theorem claim_C10_witness :
    (addImageAsWebPToZip enc0 dec0 emptyZip
        { path := "/d/a.jpg", relPath := "a.jpg", isDir := false,
          content := [255, 216, 255, 1], mode := 420, modTime := 3 }).1.entries =
      emptyZip.entries ++
        [{ header := { name := webpName "a.jpg", method := zipDeflate,
                       mode := none, modTime := none },
           content := [82, 73, 70, 70, 1] }]
    ∧ (addImageAsWebPToZip enc0 dec0 emptyZip
        { path := "/d/a.jpg", relPath := "a.jpg", isDir := false,
          content := [255, 216, 255, 1], mode := 420, modTime := 3 }).2 = .ok ()
    ∧ ∀ (z2 : ZipArchive) (item2 : WalkItem),
        (addFileToZip z2 item2).entries = z2.entries ++
          [{ header := { name := item2.relPath, method := zipDeflate,
                         mode := some item2.mode, modTime := some item2.modTime },
             content := item2.content }] :=
  claim_C10 enc0 dec0 emptyZip
    { path := "/d/a.jpg", relPath := "a.jpg", isDir := false,
      content := [255, 216, 255, 1], mode := 420, modTime := 3 }
    1 "JPEG" [82, 73, 70, 70, 1] rfl rfl
